import Mathlib

/-!
Verification of the check-in integrity core of an offline classroom
attendance kiosk (a single-file Flask/SQLite application, `app.py`).

The shallow embedding below translates the relevant parts of `app.py`
into pure Lean functions: the SQLite tables become lists of records, the
Flask per-client session becomes explicit state (the rate-limit counter),
the filesystem snapshot directory becomes a list of filenames, and the
nondeterministic inputs of a request (random token, clock readings,
camera availability, form fields, client metadata) become explicit
parameters.  SHA-256 and UTF-8 encoding are kept abstract as parameters
of a `Crypto` bundle, since only their deterministic functional behaviour
matters to the properties proved here.
-/

namespace Attendance

/-- Python `str.upper()` on the code points of a string
(`.upper()` in `app.py` is applied to ASCII session codes). -/
def pyUpper (s : String) : String := ⟨s.data.map Char.toUpper⟩

/-- Python `str.strip()`: drop leading and trailing whitespace. -/
def pyStrip (s : String) : String :=
  ⟨((s.data.dropWhile Char.isWhitespace).reverse.dropWhile Char.isWhitespace).reverse⟩

/-- Python slice `s[:n]` (by characters, as Python slices by code points). -/
def pyTake (n : Nat) (s : String) : String := ⟨s.data.take n⟩

/-- Row of the `students` table (`init_db` in `app.py`). -/
structure Student where
  id : Nat
  roll_no : String
  full_name : String
  class_name : String
  «section» : String
  pin_hash : String
  salt : String
  created_at : String
deriving DecidableEq, Repr

/-- Row of the `day_session` table: `day` is the primary key. -/
structure DaySessionRow where
  day : String
  session_code : String
  created_at : String
deriving DecidableEq, Repr

/-- Row of the `attendance` table, subject to `UNIQUE(student_id, day)`. -/
structure AttendanceRecord where
  student_id : Nat
  day : String
  status : String
  checked_in_at : String
  snapshot_path : Option String
  ip : String
  user_agent : String
deriving DecidableEq, Repr

/-- Row of the append-only `audit_log` table. -/
structure AuditEvent where
  ts : String
  event : String
  detail : String
deriving DecidableEq, Repr

/-- The SQLite database state: one list per table. -/
structure DB where
  students : List Student
  day_session : List DaySessionRow
  attendance : List AttendanceRecord
  audit_log : List AuditEvent
deriving DecidableEq, Repr

/-- The byte-level primitives of `hash_pw`, kept abstract: UTF-8 encoding
of a string, one SHA-256 compression application on a byte string, and
hexadecimal rendering of a digest.  Bytes are modelled as `List Nat`. -/
structure Crypto where
  encode : String → List Nat
  sha256 : List Nat → List Nat
  hex : List Nat → String

/-- Iteration count of `hash_pw` (`150_000` in `app.py`). -/
def pw_rounds : Nat := 150000

/-- Model of `hash_pw(password, salt)`: sha256 iterated `pw_rounds` times on the
UTF-8 bytes of `salt + password`, rendered in hex. -/
def hash_pw (C : Crypto) (password salt : String) : String :=
  C.hex (C.sha256^[pw_rounds] (C.encode (salt ++ password)))

/-- PIN/password verification as performed at the call sites of `hash_pw`
(`kiosk`, `admin_login`): recompute and compare for equality. -/
def verify (C : Crypto) (secret salt digest : String) : Bool :=
  hash_pw C secret salt == digest

/-- Model of `log(event, detail)`: append one audit row, truncating `detail` to
1000 characters (`detail[:1000]`). -/
def log (nowStr event detail : String) (db : DB) : DB :=
  { db with audit_log := db.audit_log ++ [⟨nowStr, event, pyTake 1000 detail⟩] }

/-- Model of `rate_limit_key()`: the per-session counter, initialised to `0` when
the session holds none. -/
def rate_limit_key (rl : Option Nat) : Nat := rl.getD 0

/-- Model of `get_or_create_session_code()` run without interference: look up the
`day_session` row for `day`; if present return its code, otherwise insert
`token.upper()` and log `NEW_DAY_SESSION`.  `token` stands for the value
returned by `secrets.token_hex(3)` on this call. -/
def get_or_create_session_code (token nowStr day : String) (db : DB) :
    String × DB :=
  match db.day_session.find? (fun r => r.day == day) with
  | some row => (row.session_code, db)
  | none =>
      let code := pyUpper token
      let db1 := { db with day_session := db.day_session ++ [⟨day, code, nowStr⟩] }
      (code, log nowStr "NEW_DAY_SESSION" ("day=" ++ day ++ ", code=" ++ code) db1)

/-- Model of `get_or_create_session_code()` with a concurrent writer: `interleave`
is applied to the database between the `SELECT` and the `INSERT`,
modelling rows committed by another request in that window.  The
source's `INSERT` is not wrapped in any `try/except`, so a primary-key
conflict on `day` surfaces as an uncaught `sqlite3.IntegrityError`,
modelled as `Except.error`. -/
def get_or_create_session_code_race (token nowStr day : String)
    (interleave : DB → DB) (db : DB) : Except String (String × DB) :=
  match db.day_session.find? (fun r => r.day == day) with
  | some row => .ok (row.session_code, db)
  | none =>
      let db1 := interleave db
      let code := pyUpper token
      if db1.day_session.any (fun r => r.day == day) then
        .error "sqlite3.IntegrityError: UNIQUE constraint failed: day_session.day"
      else
        let db2 := { db1 with day_session := db1.day_session ++ [⟨day, code, nowStr⟩] }
        .ok (code, log nowStr "NEW_DAY_SESSION" ("day=" ++ day ++ ", code=" ++ code) db2)

/-- Model of `capture_snapshot(roll_no)`: best-effort webcam capture.  `camOk`
collapses "OpenCV importable, camera opens, a frame is read"; on success
the file `{day}_{roll}_{ts}.jpg` is written to the snapshot directory
(modelled as a list of filenames) and its name returned. -/
def capture_snapshot (camOk : Bool) (day roll ts : String) (fs : List String) :
    Option String × List String :=
  if camOk then
    let filename := day ++ "_" ++ roll ++ "_" ++ ts ++ ".jpg"
    (some filename, filename :: fs)
  else (none, fs)

/-- Outcome of one POST to `/kiosk`, one constructor per exit path. -/
inductive CheckInOutcome where
  | rateLimitExceeded
  | missingField
  | badSessionCode
  | unknownStudent
  | badPin
  | alreadyCheckedIn
  | success
deriving DecidableEq, Repr

/-- Result of one POST to `/kiosk`: outcome, database, the value stored
back into `session["rl"]["count"]`, and the snapshot directory. -/
structure KioskResult where
  outcome : CheckInOutcome
  db : DB
  rl : Nat
  fs : List String
deriving Repr

/-- The form fields of a check-in POST. -/
structure Form where
  roll_no : String
  pin : String
  session_code : String
deriving DecidableEq, Repr

/-- Client metadata: `request.remote_addr` and the `User-Agent` header. -/
structure ClientMeta where
  remote_addr : String
  user_agent : String
deriving DecidableEq, Repr

/-- The POST branch of the `kiosk` route, translated step for step:
`get_or_create_session_code()` first, then `bump_rate_limit()` (increment,
abort 429 past 20), then trim/uppercase the fields, then the ordered
checks — empty field, session code, roster lookup, PIN — then snapshot
capture, then the attendance `INSERT` whose `UNIQUE(student_id, day)`
violation is caught as `AlreadyCheckedIn`.  The `MissingField` branch
writes no audit row, exactly as in the source. -/
def kiosk_post (C : Crypto) (token nowStr ts day : String) (camOk : Bool)
    (form : Form) (meta : ClientMeta) (db0 : DB) (rlSession : Option Nat)
    (fs : List String) : KioskResult :=
  let cdb := get_or_create_session_code token nowStr day db0
  let code := cdb.1
  let db := cdb.2
  let rl := rate_limit_key rlSession + 1
  if 20 < rl then ⟨.rateLimitExceeded, db, rl, fs⟩
  else
    let roll_no := pyStrip form.roll_no
    let pin := pyStrip form.pin
    let session_code := pyUpper (pyStrip form.session_code)
    if roll_no = "" ∨ pin = "" ∨ session_code = "" then
      ⟨.missingField, db, rl, fs⟩
    else if session_code ≠ code then
      ⟨.badSessionCode,
        log nowStr "CHECKIN_FAIL" ("roll=" ++ roll_no ++ ", reason=bad_session_code") db,
        rl, fs⟩
    else
      match db.students.find? (fun s => s.roll_no == roll_no) with
      | none =>
          ⟨.unknownStudent,
            log nowStr "CHECKIN_FAIL" ("roll=" ++ roll_no ++ ", reason=unknown_roll") db,
            rl, fs⟩
      | some stu =>
          let expected := hash_pw C pin stu.salt
          if expected ≠ stu.pin_hash then
            ⟨.badPin,
              log nowStr "CHECKIN_FAIL" ("roll=" ++ roll_no ++ ", reason=bad_pin") db,
              rl, fs⟩
          else
            let snapped := capture_snapshot camOk day roll_no ts fs
            let snap_file := snapped.1
            let fs1 := snapped.2
            if db.attendance.any (fun a => a.student_id == stu.id && a.day == day) then
              ⟨.alreadyCheckedIn,
                log nowStr "CHECKIN_DUP" ("roll=" ++ roll_no ++ " already checked today") db,
                rl, fs1⟩
            else
              let record : AttendanceRecord :=
                ⟨stu.id, day, "P", nowStr, snap_file, meta.remote_addr,
                 pyTake 300 meta.user_agent⟩
              let db1 := { db with attendance := db.attendance ++ [record] }
              ⟨.success,
                log nowStr "CHECKIN_OK"
                  ("roll=" ++ roll_no ++ ", snap=" ++ snap_file.getD "none") db1,
                rl, fs1⟩

/-- Iterated kiosk POSTs: `n` consecutive POSTs from one client session, threading database,
session counter and snapshot directory. -/
def kiosk_iterate (C : Crypto) (token nowStr ts day : String) (camOk : Bool)
    (form : Form) (meta : ClientMeta) :
    Nat → DB × Option Nat × List String → DB × Option Nat × List String
  | 0, st => st
  | n + 1, st =>
      let st1 := kiosk_iterate C token nowStr ts day camOk form meta n st
      let r := kiosk_post C token nowStr ts day camOk form meta st1.1 st1.2.1 st1.2.2
      (r.db, some r.rl, r.fs)

/-- Value of the decimal-digit prefix of a character list. -/
def digitsVal (cs : List Char) : Nat :=
  (cs.takeWhile Char.isDigit).foldl (fun a c => a * 10 + (c.toNat - 48)) 0

/-- SQLite `CAST(s AS INT)` on a TEXT value: ignore leading spaces, read
an optional sign and the longest digit prefix, yielding `0` when no digit
prefix exists. -/
def sqliteCastInt (s : String) : Int :=
  match s.data.dropWhile (· = ' ') with
  | '-' :: rest => -(digitsVal rest : Int)
  | '+' :: rest => (digitsVal rest : Int)
  | cs => (digitsVal cs : Int)

/-- One row of the `/admin/reports` query result. -/
structure ReportRow where
  roll_no : String
  full_name : String
  class_name : String
  «section» : String
  status : String
  checked_in_at : Option String
  snapshot_path : Option String
deriving DecidableEq, Repr

/-- Code points of a string; SQLite's BINARY collation compares UTF-8
bytes, which for UTF-8 coincides with code-point order. -/
def strKey (s : String) : List Nat := s.data.map Char.toNat

/-- The `ORDER BY s.class_name, s.section, CAST(s.roll_no AS INT),
s.roll_no` sort key of the report query, as a lexicographic tuple. -/
def rowKey (r : ReportRow) : Lex (List Nat × Lex (List Nat × Lex (Int × List Nat))) :=
  toLex (strKey r.class_name,
    toLex (strKey r.«section», toLex (sqliteCastInt r.roll_no, strKey r.roll_no)))

/-- Boolean comparison used to sort report rows. -/
def rowLE (x y : ReportRow) : Bool := decide (rowKey x ≤ rowKey y)

/-- The `Absent` row produced by the report's LEFT JOIN when a student
has no attendance row for the day (`a.id IS NULL`). -/
def absentRow (s : Student) : ReportRow :=
  ⟨s.roll_no, s.full_name, s.class_name, s.«section», "A", none, none⟩

/-- The `Present` row produced when an attendance row matches. -/
def presentRow (s : Student) (a : AttendanceRecord) : ReportRow :=
  ⟨s.roll_no, s.full_name, s.class_name, s.«section», "P",
   some a.checked_in_at, a.snapshot_path⟩

/-- The LEFT JOIN of the report query before ordering: each student
contributes one `Absent` row when no attendance row for `day` matches,
and one `Present` row per matching attendance row. -/
def report_rows (day : String) (db : DB) : List ReportRow :=
  db.students.flatMap (fun s =>
    match db.attendance.filter (fun a => a.student_id == s.id && a.day == day) with
    | [] => [absentRow s]
    | ms => ms.map (presentRow s))

/-- The single report row of a student under the uniqueness invariant:
`Present` from the first matching attendance row, else `Absent`. -/
def student_report_row (day : String) (db : DB) (s : Student) : ReportRow :=
  match db.attendance.filter (fun a => a.student_id == s.id && a.day == day) with
  | [] => absentRow s
  | a :: _ => presentRow s a

/-- The `/admin/reports` route for a given `day`: the joined rows in
`ORDER BY` order, with the present and absent tallies its loop computes
(`status == 'P'` counts as present, anything else as absent). -/
def admin_reports (day : String) (db : DB) :
    List ReportRow × Nat × Nat :=
  let rows := (report_rows day db).mergeSort rowLE
  (rows, rows.countP (fun r => r.status == "P"),
    rows.countP (fun r => !(r.status == "P")))

/-! ### Structural lemmas about the embedded operations -/

theorem get_or_create_found {token nowStr day : String} {db : DB} {row : DaySessionRow}
    (h : db.day_session.find? (fun r => r.day == day) = some row) :
    get_or_create_session_code token nowStr day db = (row.session_code, db) := by
  simp [get_or_create_session_code, h]

theorem get_or_create_not_found {token nowStr day : String} {db : DB}
    (h : db.day_session.find? (fun r => r.day == day) = none) :
    get_or_create_session_code token nowStr day db =
      (pyUpper token,
        log nowStr "NEW_DAY_SESSION" ("day=" ++ day ++ ", code=" ++ pyUpper token)
          { db with day_session := db.day_session ++ [⟨day, pyUpper token, nowStr⟩] }) := by
  simp [get_or_create_session_code, h]

theorem log_students (nowStr event detail : String) (db : DB) :
    (log nowStr event detail db).students = db.students := rfl

theorem log_attendance (nowStr event detail : String) (db : DB) :
    (log nowStr event detail db).attendance = db.attendance := rfl

theorem get_or_create_students (token nowStr day : String) (db : DB) :
    (get_or_create_session_code token nowStr day db).2.students = db.students := by
  unfold get_or_create_session_code
  cases h : db.day_session.find? (fun r => r.day == day) <;> simp [log]

theorem get_or_create_attendance (token nowStr day : String) (db : DB) :
    (get_or_create_session_code token nowStr day db).2.attendance = db.attendance := by
  unfold get_or_create_session_code
  cases h : db.day_session.find? (fun r => r.day == day) <;> simp [log]

/-- The code returned by `get_or_create_session_code` does not depend on
the `students`, `attendance` or `audit_log` tables. -/
theorem get_or_create_code_students (token nowStr day : String) (db : DB)
    (sts : List Student) :
    (get_or_create_session_code token nowStr day { db with students := sts }).1 =
      (get_or_create_session_code token nowStr day db).1 := by
  unfold get_or_create_session_code
  cases h : db.day_session.find? (fun r => r.day == day) <;> simp [h]

/-- Auxiliary evaluation rule: with the identity in place of the abstract
compression function, `hash_pw` collapses to hex-encoding the encoded
concatenation.  Used to produce concrete hash values in witnesses without
unfolding 150000 iterations. -/
theorem hash_pw_sha_id (e : String → List Nat) (hx : List Nat → String)
    (p s : String) : hash_pw ⟨e, id, hx⟩ p s = hx (e (s ++ p)) := by
  simp [hash_pw, Function.iterate_id]

end Attendance

namespace Attendance

section KioskBranches

variable (C : Crypto) (token nowStr ts day : String) (camOk : Bool)
  (form : Form) (meta : ClientMeta) (db0 : DB) (rlSession : Option Nat)
  (fs : List String)

/-- The counter written back to the session: incremented on every POST,
whatever the outcome. -/
theorem kiosk_post_rl :
    (kiosk_post C token nowStr ts day camOk form meta db0 rlSession fs).rl =
      rate_limit_key rlSession + 1 := by
  unfold kiosk_post
  dsimp only
  split
  · rfl
  · split
    · rfl
    · split
      · rfl
      · split
        · rfl
        · split
          · rfl
          · split <;> rfl

theorem kiosk_post_over_limit (h : 20 < rate_limit_key rlSession + 1) :
    kiosk_post C token nowStr ts day camOk form meta db0 rlSession fs =
      ⟨.rateLimitExceeded, (get_or_create_session_code token nowStr day db0).2,
        rate_limit_key rlSession + 1, fs⟩ := by
  unfold kiosk_post
  simp only [h, if_true]

theorem kiosk_post_missing (h : ¬ 20 < rate_limit_key rlSession + 1)
    (hm : pyStrip form.roll_no = "" ∨ pyStrip form.pin = "" ∨
      pyUpper (pyStrip form.session_code) = "") :
    kiosk_post C token nowStr ts day camOk form meta db0 rlSession fs =
      ⟨.missingField, (get_or_create_session_code token nowStr day db0).2,
        rate_limit_key rlSession + 1, fs⟩ := by
  unfold kiosk_post
  simp only [h, if_false, hm, if_true]

theorem kiosk_post_badcode (h : ¬ 20 < rate_limit_key rlSession + 1)
    (hm : ¬ (pyStrip form.roll_no = "" ∨ pyStrip form.pin = "" ∨
      pyUpper (pyStrip form.session_code) = ""))
    (hc : pyUpper (pyStrip form.session_code) ≠
      (get_or_create_session_code token nowStr day db0).1) :
    kiosk_post C token nowStr ts day camOk form meta db0 rlSession fs =
      ⟨.badSessionCode,
        log nowStr "CHECKIN_FAIL"
          ("roll=" ++ pyStrip form.roll_no ++ ", reason=bad_session_code")
          (get_or_create_session_code token nowStr day db0).2,
        rate_limit_key rlSession + 1, fs⟩ := by
  unfold kiosk_post
  dsimp only
  rw [if_neg h, if_neg hm, if_pos hc]

theorem kiosk_post_unknown (h : ¬ 20 < rate_limit_key rlSession + 1)
    (hm : ¬ (pyStrip form.roll_no = "" ∨ pyStrip form.pin = "" ∨
      pyUpper (pyStrip form.session_code) = ""))
    (hc : pyUpper (pyStrip form.session_code) =
      (get_or_create_session_code token nowStr day db0).1)
    (hs : (get_or_create_session_code token nowStr day db0).2.students.find?
      (fun s => s.roll_no == pyStrip form.roll_no) = none) :
    kiosk_post C token nowStr ts day camOk form meta db0 rlSession fs =
      ⟨.unknownStudent,
        log nowStr "CHECKIN_FAIL"
          ("roll=" ++ pyStrip form.roll_no ++ ", reason=unknown_roll")
          (get_or_create_session_code token nowStr day db0).2,
        rate_limit_key rlSession + 1, fs⟩ := by
  unfold kiosk_post
  dsimp only
  rw [if_neg h, if_neg hm, if_neg (by simp [hc])]
  simp only [hs]

theorem kiosk_post_badpin (h : ¬ 20 < rate_limit_key rlSession + 1)
    (hm : ¬ (pyStrip form.roll_no = "" ∨ pyStrip form.pin = "" ∨
      pyUpper (pyStrip form.session_code) = ""))
    (hc : pyUpper (pyStrip form.session_code) =
      (get_or_create_session_code token nowStr day db0).1)
    {stu : Student}
    (hs : (get_or_create_session_code token nowStr day db0).2.students.find?
      (fun s => s.roll_no == pyStrip form.roll_no) = some stu)
    (hp : hash_pw C (pyStrip form.pin) stu.salt ≠ stu.pin_hash) :
    kiosk_post C token nowStr ts day camOk form meta db0 rlSession fs =
      ⟨.badPin,
        log nowStr "CHECKIN_FAIL"
          ("roll=" ++ pyStrip form.roll_no ++ ", reason=bad_pin")
          (get_or_create_session_code token nowStr day db0).2,
        rate_limit_key rlSession + 1, fs⟩ := by
  unfold kiosk_post
  dsimp only
  rw [if_neg h, if_neg hm, if_neg (by simp [hc])]
  simp only [hs]
  rw [if_pos hp]

theorem kiosk_post_dup (h : ¬ 20 < rate_limit_key rlSession + 1)
    (hm : ¬ (pyStrip form.roll_no = "" ∨ pyStrip form.pin = "" ∨
      pyUpper (pyStrip form.session_code) = ""))
    (hc : pyUpper (pyStrip form.session_code) =
      (get_or_create_session_code token nowStr day db0).1)
    {stu : Student}
    (hs : (get_or_create_session_code token nowStr day db0).2.students.find?
      (fun s => s.roll_no == pyStrip form.roll_no) = some stu)
    (hp : hash_pw C (pyStrip form.pin) stu.salt = stu.pin_hash)
    (hd : (get_or_create_session_code token nowStr day db0).2.attendance.any
      (fun a => a.student_id == stu.id && a.day == day) = true) :
    kiosk_post C token nowStr ts day camOk form meta db0 rlSession fs =
      ⟨.alreadyCheckedIn,
        log nowStr "CHECKIN_DUP"
          ("roll=" ++ pyStrip form.roll_no ++ " already checked today")
          (get_or_create_session_code token nowStr day db0).2,
        rate_limit_key rlSession + 1,
        (capture_snapshot camOk day (pyStrip form.roll_no) ts fs).2⟩ := by
  unfold kiosk_post
  dsimp only
  rw [if_neg h, if_neg hm, if_neg (by simp [hc])]
  simp only [hs]
  rw [if_neg (by simp [hp]), if_pos hd]

theorem kiosk_post_success (h : ¬ 20 < rate_limit_key rlSession + 1)
    (hm : ¬ (pyStrip form.roll_no = "" ∨ pyStrip form.pin = "" ∨
      pyUpper (pyStrip form.session_code) = ""))
    (hc : pyUpper (pyStrip form.session_code) =
      (get_or_create_session_code token nowStr day db0).1)
    {stu : Student}
    (hs : (get_or_create_session_code token nowStr day db0).2.students.find?
      (fun s => s.roll_no == pyStrip form.roll_no) = some stu)
    (hp : hash_pw C (pyStrip form.pin) stu.salt = stu.pin_hash)
    (hd : (get_or_create_session_code token nowStr day db0).2.attendance.any
      (fun a => a.student_id == stu.id && a.day == day) = false) :
    kiosk_post C token nowStr ts day camOk form meta db0 rlSession fs =
      ⟨.success,
        log nowStr "CHECKIN_OK"
          ("roll=" ++ pyStrip form.roll_no ++ ", snap=" ++
            (capture_snapshot camOk day (pyStrip form.roll_no) ts fs).1.getD "none")
          { (get_or_create_session_code token nowStr day db0).2 with
            attendance := (get_or_create_session_code token nowStr day db0).2.attendance ++
              [⟨stu.id, day, "P", nowStr,
                (capture_snapshot camOk day (pyStrip form.roll_no) ts fs).1,
                meta.remote_addr, pyTake 300 meta.user_agent⟩] },
        rate_limit_key rlSession + 1,
        (capture_snapshot camOk day (pyStrip form.roll_no) ts fs).2⟩ := by
  unfold kiosk_post
  dsimp only
  rw [if_neg h, if_neg hm, if_neg (by simp [hc])]
  simp only [hs]
  rw [if_neg (by simp [hp]), if_neg (by simp [hd])]

/-- Case analysis of the attendance table across one POST: either it is
left unchanged, or (success branch only) exactly one record is appended
for a student who had no record for the day. -/
theorem kiosk_post_attendance_cases :
    (kiosk_post C token nowStr ts day camOk form meta db0 rlSession fs).db.attendance =
      db0.attendance ∨
    ∃ (stu : Student) (snap : Option String),
      db0.attendance.any (fun a => a.student_id == stu.id && a.day == day) = false ∧
      (kiosk_post C token nowStr ts day camOk form meta db0 rlSession fs).db.attendance =
        db0.attendance ++
          [⟨stu.id, day, "P", nowStr, snap, meta.remote_addr, pyTake 300 meta.user_agent⟩] := by
  unfold kiosk_post
  dsimp only
  split
  · exact Or.inl (get_or_create_attendance token nowStr day db0)
  · split
    · exact Or.inl (get_or_create_attendance token nowStr day db0)
    · split
      · exact Or.inl (by simp [log_attendance, get_or_create_attendance])
      · split
        · exact Or.inl (by simp [log_attendance, get_or_create_attendance])
        · next stu heq =>
            split
            · exact Or.inl (by simp [log_attendance, get_or_create_attendance])
            · split
              · exact Or.inl (by simp [log_attendance, get_or_create_attendance])
              · next hany =>
                  refine Or.inr ⟨stu,
                    (capture_snapshot camOk day (pyStrip form.roll_no) ts fs).1, ?_, ?_⟩
                  · rw [← get_or_create_attendance token nowStr day db0]
                    simpa using hany
                  · rw [← get_or_create_attendance token nowStr day db0]
                    simp [log_attendance]

end KioskBranches

/-- The storage-level invariant `UNIQUE(student_id, day)` of the
`attendance` table. -/
def attendance_unique (db : DB) : Prop :=
  db.attendance.Pairwise (fun a b => ¬(a.student_id = b.student_id ∧ a.day = b.day))

instance (db : DB) : Decidable (attendance_unique db) := by
  unfold attendance_unique; infer_instance

/-- The primary-key invariant of the `day_session` table. -/
def day_session_unique (db : DB) : Prop :=
  db.day_session.Pairwise (fun a b => a.day ≠ b.day)

instance (db : DB) : Decidable (day_session_unique db) := by
  unfold day_session_unique; infer_instance

/-- For `kiosk_iterate`, the session counter after `n` consecutive POSTs
equals `n` plus its starting value: every POST increments it by exactly
one and nothing ever resets it. -/
theorem kiosk_iterate_rl (C : Crypto) (token nowStr ts day : String)
    (camOk : Bool) (form : Form) (meta : ClientMeta) :
    ∀ (n : Nat) (st : DB × Option Nat × List String),
      rate_limit_key ((kiosk_iterate C token nowStr ts day camOk form meta n st).2.1) =
        n + rate_limit_key st.2.1
  | 0, st => by simp [kiosk_iterate]
  | n + 1, st => by
      have ih := kiosk_iterate_rl C token nowStr ts day camOk form meta n st
      have h1 : (kiosk_iterate C token nowStr ts day camOk form meta (n + 1) st).2.1 =
          some ((kiosk_post C token nowStr ts day camOk form meta
            (kiosk_iterate C token nowStr ts day camOk form meta n st).1
            (kiosk_iterate C token nowStr ts day camOk form meta n st).2.1
            (kiosk_iterate C token nowStr ts day camOk form meta n st).2.2).rl) := rfl
      rw [h1, show ∀ x : Nat, rate_limit_key (some x) = x from fun _ => rfl,
        kiosk_post_rl, ih]
      omega

/-- Claim C3: `getOrCreateTodayCode` is idempotent per day.  Once a
`day_session` row for the day exists, every call returns exactly the
stored code and leaves the database (row and audit log alike) unchanged,
so no `NEW_DAY_SESSION` event is emitted; the event is appended precisely
by the call that creates the row. -/
theorem get_or_create_idempotent_per_day :
    (∀ (token nowStr day : String) (db : DB) (row : DaySessionRow),
      db.day_session.find? (fun r => r.day == day) = some row →
      get_or_create_session_code token nowStr day db = (row.session_code, db)) ∧
    (∀ (token nowStr day : String) (db : DB),
      db.day_session.find? (fun r => r.day == day) = none →
      (get_or_create_session_code token nowStr day db).2.audit_log =
        db.audit_log ++ [⟨nowStr, "NEW_DAY_SESSION",
          pyTake 1000 ("day=" ++ day ++ ", code=" ++ pyUpper token)⟩]) := by
  constructor
  · intro token nowStr day db row h
    exact get_or_create_found h
  · intro token nowStr day db h
    rw [get_or_create_not_found h]
    rfl

/-- Witness for C3 at a concrete database: a second call on a day whose
row exists returns the stored code and changes nothing. -/
theorem get_or_create_idempotent_per_day_witness :
    ((⟨[], [⟨"2026-01-05", "AB12CD", "t0"⟩], [], []⟩ : DB).day_session.find?
        (fun r => r.day == "2026-01-05") = some ⟨"2026-01-05", "AB12CD", "t0"⟩) ∧
    get_or_create_session_code "ffffff" "t1" "2026-01-05"
        ⟨[], [⟨"2026-01-05", "AB12CD", "t0"⟩], [], []⟩ =
      ("AB12CD", ⟨[], [⟨"2026-01-05", "AB12CD", "t0"⟩], [], []⟩) :=
  ⟨by decide,
    get_or_create_idempotent_per_day.1 "ffffff" "t1" "2026-01-05"
      ⟨[], [⟨"2026-01-05", "AB12CD", "t0"⟩], [], []⟩
      ⟨"2026-01-05", "AB12CD", "t0"⟩ (by decide)⟩

/-- Claim C4: credential-hash round trip.  For every choice of the
byte-level primitives and every secret and salt, verifying the secret
against `hash_pw secret salt` with the same salt succeeds; the hash
iterates the compression function `pw_rounds = 150000 ≥ 100000` times on
the encoded concatenation `salt ++ secret`; and any other secret whose
recomputed digest differs from the stored digest fails verification. -/
theorem hash_round_trip :
    (∀ (C : Crypto) (secret salt : String),
      verify C secret salt (hash_pw C secret salt) = true) ∧
    pw_rounds = 150000 ∧ 100000 ≤ pw_rounds ∧
    (∀ (C : Crypto) (secret salt : String),
      hash_pw C secret salt =
        C.hex (C.sha256^[pw_rounds] (C.encode (salt ++ secret)))) ∧
    (∀ (C : Crypto) (secret salt other : String),
      hash_pw C other salt ≠ hash_pw C secret salt →
      verify C other salt (hash_pw C secret salt) = false) := by
  refine ⟨fun C s salt => ?_, rfl, by norm_num [pw_rounds],
    fun C s salt => rfl, fun C s salt o h => ?_⟩
  · simp [verify]
  · simp only [verify, beq_eq_false_iff_ne, ne_eq]
    exact h

/-- Concrete crypto primitives for witnesses: the compression function is
the identity, so `hash_pw` collapses via `hash_pw_sha_id`. -/
def cryptoW : Crypto :=
  ⟨fun s => [s.length], id, fun l => String.mk (List.replicate (l.headD 0) 'h')⟩

/-- Witness for C4: with concrete primitives, a correct secret verifies
against its own digest and a secret with a differing digest is refused. -/
theorem hash_round_trip_witness :
    hash_pw cryptoW "ab" "s" ≠ hash_pw cryptoW "a" "s" ∧
    verify cryptoW "ab" "s" (hash_pw cryptoW "a" "s") = false ∧
    verify cryptoW "a" "s" (hash_pw cryptoW "a" "s") = true := by
  have hne : hash_pw cryptoW "ab" "s" ≠ hash_pw cryptoW "a" "s" := by
    rw [show cryptoW = ⟨fun s => [s.length], id,
        fun l => String.mk (List.replicate (l.headD 0) 'h')⟩ from rfl,
      hash_pw_sha_id, hash_pw_sha_id]
    decide
  exact ⟨hne, hash_round_trip.2.2.2.2 cryptoW "a" "s" "ab" hne,
    hash_round_trip.1 cryptoW "a" "s"⟩

/-- Counterexample to C7 as stated: starting from an empty database, when
a concurrent request commits the row `("2026-01-05", "ZZZZZZ")` between
this call's SELECT and INSERT, the call does not fail-and-reread and
return the stored code `"ZZZZZZ"`; the uniqueness violation escapes as an
uncaught `sqlite3.IntegrityError` (there is no `try/except` around the
INSERT in `get_or_create_session_code`). -/
theorem get_or_create_race_raises :
    get_or_create_session_code_race "abcdef" "t1" "2026-01-05"
      (fun db => { db with day_session := db.day_session ++ [⟨"2026-01-05", "ZZZZZZ", "t0"⟩] })
      ⟨[], [], [], []⟩ =
      .error "sqlite3.IntegrityError: UNIQUE constraint failed: day_session.day" := by
  rfl

/-- Claim C7 (amended): when no row exists at SELECT time,
`get_or_create_session_code` uppercases the random token (of unchanged,
hence fixed, length) and persists it; if the INSERT conflicts with a
concurrently created row for the same day, the uniqueness violation
propagates as an uncaught error — the call does not reread.  In every
non-error outcome the returned code is stored in the resulting database,
and the `day_session` table never comes to hold two rows for the day. -/
theorem race_found {token nowStr day : String} {itl : DB → DB} {db : DB}
    {row : DaySessionRow}
    (h : db.day_session.find? (fun r => r.day == day) = some row) :
    get_or_create_session_code_race token nowStr day itl db =
      .ok (row.session_code, db) := by
  simp [get_or_create_session_code_race, h]

theorem race_conflict {token nowStr day : String} {itl : DB → DB} {db : DB}
    (h1 : db.day_session.find? (fun r => r.day == day) = none)
    (h2 : (itl db).day_session.any (fun r => r.day == day) = true) :
    get_or_create_session_code_race token nowStr day itl db =
      .error "sqlite3.IntegrityError: UNIQUE constraint failed: day_session.day" := by
  unfold get_or_create_session_code_race
  rw [h1]
  dsimp only
  rw [if_pos h2]

theorem race_insert {token nowStr day : String} {itl : DB → DB} {db : DB}
    (h1 : db.day_session.find? (fun r => r.day == day) = none)
    (h2 : (itl db).day_session.any (fun r => r.day == day) = false) :
    get_or_create_session_code_race token nowStr day itl db =
      .ok (pyUpper token,
        log nowStr "NEW_DAY_SESSION" ("day=" ++ day ++ ", code=" ++ pyUpper token)
          { itl db with day_session :=
              (itl db).day_session ++ [⟨day, pyUpper token, nowStr⟩] }) := by
  unfold get_or_create_session_code_race
  rw [h1]
  dsimp only
  rw [if_neg (by simp [h2])]

theorem get_or_create_race_behavior (token nowStr day : String)
    (itl : DB → DB) (db : DB) :
    (db.day_session.find? (fun r => r.day == day) = none →
      (itl db).day_session.any (fun r => r.day == day) = true →
      get_or_create_session_code_race token nowStr day itl db =
        .error "sqlite3.IntegrityError: UNIQUE constraint failed: day_session.day") ∧
    (∀ (c : String) (db' : DB),
      get_or_create_session_code_race token nowStr day itl db = .ok (c, db') →
      ∃ r ∈ db'.day_session, r.day = day ∧ r.session_code = c) ∧
    (db.day_session.find? (fun r => r.day == day) = none →
      (itl db).day_session.any (fun r => r.day == day) = false →
      ∃ db', get_or_create_session_code_race token nowStr day itl db =
        .ok (pyUpper token, db') ∧
        (⟨day, pyUpper token, nowStr⟩ : DaySessionRow) ∈ db'.day_session) ∧
    ((pyUpper token).length = token.length) ∧
    (∀ (c : String) (db' : DB),
      get_or_create_session_code_race token nowStr day itl db = .ok (c, db') →
      db.day_session.countP (fun r => r.day == day) ≤ 1 →
      (itl db).day_session.countP (fun r => r.day == day) ≤ 1 →
      db'.day_session.countP (fun r => r.day == day) ≤ 1) := by
  refine ⟨fun h1 h2 => race_conflict h1 h2, ?_, ?_, ?_, ?_⟩
  · intro c db' hok
    cases hfind : db.day_session.find? (fun r => r.day == day) with
    | some row =>
        rw [race_found hfind] at hok
        simp only [Except.ok.injEq, Prod.mk.injEq] at hok
        obtain ⟨hc, hdb⟩ := hok
        refine ⟨row, ?_, ?_, hc⟩
        · rw [← hdb]; exact List.mem_of_find?_eq_some hfind
        · have := List.find?_some hfind
          simpa using this
    | none =>
        cases hany : (itl db).day_session.any (fun r => r.day == day) with
        | true => rw [race_conflict hfind hany] at hok; cases hok
        | false =>
            rw [race_insert hfind hany] at hok
            simp only [Except.ok.injEq, Prod.mk.injEq] at hok
            obtain ⟨hc, hdb⟩ := hok
            refine ⟨⟨day, pyUpper token, nowStr⟩, ?_, rfl, hc⟩
            rw [← hdb]
            simp [log]
  · intro h1 h2
    exact ⟨_, race_insert h1 h2, by simp [log]⟩
  · rw [show (pyUpper token).length = (token.data.map Char.toUpper).length from rfl,
      List.length_map]
    rfl
  · intro c db' hok hdb hitl
    cases hfind : db.day_session.find? (fun r => r.day == day) with
    | some row =>
        rw [race_found hfind] at hok
        simp only [Except.ok.injEq, Prod.mk.injEq] at hok
        rw [← hok.2]
        exact hdb
    | none =>
        cases hany : (itl db).day_session.any (fun r => r.day == day) with
        | true => rw [race_conflict hfind hany] at hok; cases hok
        | false =>
            rw [race_insert hfind hany] at hok
            simp only [Except.ok.injEq, Prod.mk.injEq] at hok
            rw [← hok.2]
            have hzero : (itl db).day_session.countP (fun r => r.day == day) = 0 := by
              rw [List.countP_eq_zero]
              intro a ha
              have := List.any_eq_false.mp hany a ha
              simpa using this
            simp [log, List.countP_append, hzero]

/-- Under the uniqueness invariant, at most one attendance row matches a
given (student, day). -/
theorem attendance_filter_le_one {db : DB} (hu : attendance_unique db)
    (sid : Nat) (d : String) :
    (db.attendance.filter (fun a => a.student_id == sid && a.day == d)).length ≤ 1 := by
  have hp : (db.attendance.filter (fun a => a.student_id == sid && a.day == d)).Pairwise
      (fun a b => ¬(a.student_id = b.student_id ∧ a.day = b.day)) :=
    List.Pairwise.sublist (List.filter_sublist _) hu
  cases hfil : db.attendance.filter (fun a => a.student_id == sid && a.day == d) with
  | nil => simp
  | cons a t =>
      cases t with
      | nil => simp
      | cons b t2 =>
          exfalso
          rw [hfil] at hp
          have hr := (List.pairwise_cons.mp hp).1 b (by simp)
          have ham : a ∈ db.attendance.filter (fun x => x.student_id == sid && x.day == d) := by
            rw [hfil]; exact List.mem_cons_self a _
          have hbm : b ∈ db.attendance.filter (fun x => x.student_id == sid && x.day == d) := by
            rw [hfil]; simp
          have ha := List.of_mem_filter ham
          have hb := List.of_mem_filter hbm
          simp only [Bool.and_eq_true, beq_iff_eq] at ha hb
          exact hr ⟨ha.1.trans hb.1.symm, ha.2.trans hb.2.symm⟩

/-- Under the uniqueness invariant the report's LEFT JOIN yields exactly
one row per enrolled student. -/
theorem report_rows_eq_map {day : String} {db : DB} (hu : attendance_unique db) :
    report_rows day db = db.students.map (student_report_row day db) := by
  unfold report_rows
  induction db.students with
  | nil => rfl
  | cons s rest ih =>
      rw [List.flatMap_cons, List.map_cons, ih]
      cases hfil : db.attendance.filter (fun a => a.student_id == s.id && a.day == day) with
      | nil => simp [student_report_row, hfil]
      | cons a t =>
          cases t with
          | nil => simp [student_report_row, hfil]
          | cons b t2 =>
              exfalso
              have := attendance_filter_le_one hu s.id day
              rw [hfil] at this
              simp at this

/-- A student's report row is `Present` exactly when an attendance row
for the day exists. -/
theorem student_report_row_status (day : String) (db : DB) (s : Student) :
    ((student_report_row day db s).status = "P" ↔
      db.attendance.any (fun a => a.student_id == s.id && a.day == day) = true) := by
  unfold student_report_row
  cases hfil : db.attendance.filter (fun a => a.student_id == s.id && a.day == day) with
  | nil =>
      have hany : db.attendance.any (fun a => a.student_id == s.id && a.day == day) = false := by
        rw [List.any_eq_false]
        exact List.filter_eq_nil_iff.mp hfil
      simp [absentRow, hany]
  | cons a t =>
      have hany : db.attendance.any (fun a => a.student_id == s.id && a.day == day) = true := by
        rw [List.any_eq_true]
        have ham : a ∈ db.attendance.filter (fun a => a.student_id == s.id && a.day == day) := by
          rw [hfil]; exact List.mem_cons_self a t
        exact ⟨a, (List.mem_filter.mp ham).1, (List.mem_filter.mp ham).2⟩
      simp [presentRow, hany]

/-- A student with no attendance row for the day is reported `Absent`
with no timestamp and no snapshot. -/
theorem student_report_row_absent (day : String) (db : DB) (s : Student)
    (hany : db.attendance.any (fun a => a.student_id == s.id && a.day == day) = false) :
    student_report_row day db s = absentRow s := by
  unfold student_report_row
  cases hfil : db.attendance.filter (fun a => a.student_id == s.id && a.day == day) with
  | nil => rfl
  | cons a t =>
      exfalso
      have ham : a ∈ db.attendance.filter (fun a => a.student_id == s.id && a.day == day) := by
        rw [hfil]; exact List.mem_cons_self a t
      have := List.any_eq_false.mp hany a (List.mem_filter.mp ham).1
      exact this (List.mem_filter.mp ham).2

/-- A student whose unique matching attendance row is `a` is reported
`Present` with that row's check-in time and snapshot. -/
theorem student_report_row_present (day : String) (db : DB) (s : Student)
    (a : AttendanceRecord)
    (hfil : db.attendance.filter (fun x => x.student_id == s.id && x.day == day) = [a]) :
    student_report_row day db s = presentRow s a := by
  unfold student_report_row
  rw [hfil]

theorem rowLE_trans (a b c : ReportRow) (hab : rowLE a b = true)
    (hbc : rowLE b c = true) : rowLE a c = true := by
  simp only [rowLE, decide_eq_true_eq] at *
  exact le_trans hab hbc

theorem rowLE_total (a b : ReportRow) : (rowLE a b || rowLE b a) = true := by
  simp only [rowLE, Bool.or_eq_true, decide_eq_true_eq]
  exact le_total _ _

/-- Claim C6: the daily report contains every enrolled student exactly
once (it is a permutation of one row per student, of the same length as
the roster); a student with an attendance row for the day is `Present`
with that row's check-in time, a student without one is `Absent` with no
timestamp or snapshot; the rows are sorted by class, then section, then
roll cast to an integer with the full roll string as lexical tiebreaker
(the report's `ORDER BY` key); and the present and absent tallies equal
the sizes of the two groups and sum to the roster size.  The route only
reads: `admin_reports` is a pure function of the database. -/
theorem daily_report_complete (day : String) (db : DB)
    (hu : attendance_unique db) :
    (admin_reports day db).1.Perm (db.students.map (student_report_row day db)) ∧
    (admin_reports day db).1.length = db.students.length ∧
    List.Pairwise (fun a b => rowLE a b = true) (admin_reports day db).1 ∧
    (∀ s, ((student_report_row day db s).status = "P" ↔
      db.attendance.any (fun a => a.student_id == s.id && a.day == day) = true)) ∧
    (∀ s, db.attendance.any (fun a => a.student_id == s.id && a.day == day) = false →
      student_report_row day db s = absentRow s) ∧
    (∀ s a, db.attendance.filter (fun x => x.student_id == s.id && x.day == day) = [a] →
      student_report_row day db s = presentRow s a) ∧
    (admin_reports day db).2.1 =
      (db.students.filter
        (fun s => db.attendance.any (fun a => a.student_id == s.id && a.day == day))).length ∧
    (admin_reports day db).2.2 =
      (db.students.filter
        (fun s => !(db.attendance.any (fun a => a.student_id == s.id && a.day == day)))).length ∧
    (admin_reports day db).2.1 + (admin_reports day db).2.2 = db.students.length := by
  have hmap := @report_rows_eq_map day db hu
  have hperm : (admin_reports day db).1.Perm
      (db.students.map (student_report_row day db)) := by
    rw [show (admin_reports day db).1 = (report_rows day db).mergeSort rowLE from rfl, ← hmap]
    exact List.mergeSort_perm _ _
  have hlen : (admin_reports day db).1.length = db.students.length := by
    rw [hperm.length_eq, List.length_map]
  have hpres : (admin_reports day db).2.1 =
      (db.students.filter
        (fun s => db.attendance.any (fun a => a.student_id == s.id && a.day == day))).length := by
    rw [show (admin_reports day db).2.1 =
      (admin_reports day db).1.countP (fun r => r.status == "P") from rfl]
    rw [List.Perm.countP_eq _ hperm, List.countP_map, ← List.countP_eq_length_filter]
    refine List.countP_congr ?_
    intro s _
    simp only [Function.comp_apply, beq_iff_eq]
    constructor
    · intro hx
      exact (student_report_row_status day db s).mp (by simpa using hx)
    · intro hx
      simpa using (student_report_row_status day db s).mpr hx
  have habs : (admin_reports day db).2.2 =
      (db.students.filter
        (fun s => !(db.attendance.any (fun a => a.student_id == s.id && a.day == day)))).length := by
    rw [show (admin_reports day db).2.2 =
      (admin_reports day db).1.countP (fun r => !(r.status == "P")) from rfl]
    rw [List.Perm.countP_eq _ hperm, List.countP_map, ← List.countP_eq_length_filter]
    refine List.countP_congr ?_
    intro s _
    simp only [Function.comp_apply, Bool.not_eq_true', beq_eq_false_iff_ne, ne_eq,
      Bool.not_eq_true]
    constructor
    · intro hx
      rcases hb : db.attendance.any (fun a => a.student_id == s.id && a.day == day) with _ | _
      · rfl
      · exact absurd ((student_report_row_status day db s).mpr hb) hx
    · intro hx hs
      rw [(student_report_row_status day db s).mp hs] at hx
      cases hx
  refine ⟨hperm, hlen, ?_, student_report_row_status day db,
    student_report_row_absent day db, student_report_row_present day db,
    hpres, habs, ?_⟩
  · exact List.sorted_mergeSort rowLE_trans rowLE_total (report_rows day db)
  · rw [hpres, habs, ← List.countP_eq_length_filter, ← List.countP_eq_length_filter]
    have := List.length_eq_countP_add_countP
      (fun s => db.attendance.any (fun a => a.student_id == s.id && a.day == day))
      db.students
    rw [this]
    congr 1
    refine List.countP_congr ?_
    intro s _
    simp

/-- Witness for C6 at a concrete roster: two students in class 10 A and
one in 9 B, one attendance row, giving one present and two absent. -/
theorem daily_report_complete_witness :
    attendance_unique ⟨[⟨1, "2", "Bob", "10", "A", "h", "s", "t"⟩,
        ⟨2, "10", "Cid", "10", "A", "h", "s", "t"⟩,
        ⟨3, "x", "Eve", "9", "B", "h", "s", "t"⟩], [],
        [⟨2, "D", "P", "t9", some "snap.jpg", "i", "u"⟩], []⟩ ∧
    (admin_reports "D" ⟨[⟨1, "2", "Bob", "10", "A", "h", "s", "t"⟩,
        ⟨2, "10", "Cid", "10", "A", "h", "s", "t"⟩,
        ⟨3, "x", "Eve", "9", "B", "h", "s", "t"⟩], [],
        [⟨2, "D", "P", "t9", some "snap.jpg", "i", "u"⟩], []⟩).2.1 +
      (admin_reports "D" ⟨[⟨1, "2", "Bob", "10", "A", "h", "s", "t"⟩,
        ⟨2, "10", "Cid", "10", "A", "h", "s", "t"⟩,
        ⟨3, "x", "Eve", "9", "B", "h", "s", "t"⟩], [],
        [⟨2, "D", "P", "t9", some "snap.jpg", "i", "u"⟩], []⟩).2.2 = 3 :=
  ⟨by decide,
    (daily_report_complete "D" ⟨[⟨1, "2", "Bob", "10", "A", "h", "s", "t"⟩,
        ⟨2, "10", "Cid", "10", "A", "h", "s", "t"⟩,
        ⟨3, "x", "Eve", "9", "B", "h", "s", "t"⟩], [],
        [⟨2, "D", "P", "t9", some "snap.jpg", "i", "u"⟩], []⟩
      (by decide)).2.2.2.2.2.2.2.2⟩

/-- Claim C1: at most one attendance record per (student, day).  The
`UNIQUE(student_id, day)` invariant is preserved by every POST whatever
it contains, and an otherwise-valid check-in for a student who already
has a record for the day hits the uniqueness violation on insert, ends in
`AlreadyCheckedIn`, and appends no second record. -/
theorem attendance_at_most_one_per_day :
    (∀ (C : Crypto) (token nowStr ts day : String) (camOk : Bool) (form : Form)
      (meta : ClientMeta) (db : DB) (rlS : Option Nat) (fs : List String),
      attendance_unique db →
      attendance_unique (kiosk_post C token nowStr ts day camOk form meta db rlS fs).db) ∧
    (∀ (C : Crypto) (token nowStr ts day : String) (camOk : Bool) (form : Form)
      (meta : ClientMeta) (db : DB) (rlS : Option Nat) (fs : List String) (stu : Student),
      ¬ 20 < rate_limit_key rlS + 1 →
      ¬ (pyStrip form.roll_no = "" ∨ pyStrip form.pin = "" ∨
        pyUpper (pyStrip form.session_code) = "") →
      pyUpper (pyStrip form.session_code) =
        (get_or_create_session_code token nowStr day db).1 →
      (get_or_create_session_code token nowStr day db).2.students.find?
        (fun s => s.roll_no == pyStrip form.roll_no) = some stu →
      hash_pw C (pyStrip form.pin) stu.salt = stu.pin_hash →
      (get_or_create_session_code token nowStr day db).2.attendance.any
        (fun a => a.student_id == stu.id && a.day == day) = true →
      (kiosk_post C token nowStr ts day camOk form meta db rlS fs).outcome =
        .alreadyCheckedIn ∧
      (kiosk_post C token nowStr ts day camOk form meta db rlS fs).db.attendance =
        db.attendance) := by
  constructor
  · intro C token nowStr ts day camOk form meta db rlS fs hu
    rcases kiosk_post_attendance_cases C token nowStr ts day camOk form meta db rlS fs with
      h | ⟨stu, snap, hany, h⟩
    · unfold attendance_unique
      rw [h]
      exact hu
    · unfold attendance_unique
      rw [h, List.pairwise_append]
      refine ⟨hu, List.pairwise_singleton _ _, ?_⟩
      intro a ha b hb
      have hb' : b = (⟨stu.id, day, "P", nowStr, snap, meta.remote_addr,
          pyTake 300 meta.user_agent⟩ : AttendanceRecord) := by simpa using hb
      subst hb'
      have := (List.any_eq_false.mp hany) a ha
      simp only [Bool.and_eq_true, beq_iff_eq] at this
      intro hcontra
      exact this ⟨hcontra.1, hcontra.2⟩
  · intro C token nowStr ts day camOk form meta db rlS fs stu h hm hc hs hp hd
    rw [kiosk_post_dup C token nowStr ts day camOk form meta db rlS fs h hm hc hs hp hd]
    exact ⟨rfl, by simp [log_attendance, get_or_create_attendance]⟩

/-- Concrete student for witnesses: roll `12`, PIN `4321` hashed with
`cryptoW` and salt `sa` (digest `hhhhhh`). -/
def stuW : Student := ⟨1, "12", "Alice Smith", "10", "A", "hhhhhh", "sa", "t0"⟩

/-- Concrete database for witnesses: one student, today's session row
with code `AB12CD`, no attendance yet. -/
def dbW : DB := ⟨[stuW], [⟨"2026-01-05", "AB12CD", "t0"⟩], [], []⟩

/-- State of `dbW` after student 1 has already checked in on `2026-01-05`. -/
def dbWdup : DB :=
  ⟨[stuW], [⟨"2026-01-05", "AB12CD", "t0"⟩],
    [⟨1, "2026-01-05", "P", "t0", none, "ip0", "ua0"⟩], []⟩

/-- The digest of PIN `4321` under `cryptoW` with salt `sa`. -/
theorem hash_cryptoW_pin : hash_pw cryptoW (pyStrip "4321") "sa" = "hhhhhh" := by
  rw [show pyStrip "4321" = "4321" from by decide,
    show cryptoW = ⟨fun s => [s.length], id,
      fun l => String.mk (List.replicate (l.headD 0) 'h')⟩ from rfl,
    hash_pw_sha_id]
  decide

/-- Witness for C1: a second same-day check-in with valid roll, PIN and
session code is rejected as a duplicate and the attendance table keeps
its single record. -/
theorem attendance_at_most_one_per_day_witness :
    (kiosk_post cryptoW "abcdef" "t1" "s1" "2026-01-05" false ⟨" 12 ", "4321", "ab12cd"⟩
      ⟨"ip", "ua"⟩ dbWdup none []).outcome = .alreadyCheckedIn ∧
    (kiosk_post cryptoW "abcdef" "t1" "s1" "2026-01-05" false ⟨" 12 ", "4321", "ab12cd"⟩
      ⟨"ip", "ua"⟩ dbWdup none []).db.attendance = dbWdup.attendance :=
  attendance_at_most_one_per_day.2 cryptoW "abcdef" "t1" "s1" "2026-01-05" false
    ⟨" 12 ", "4321", "ab12cd"⟩ ⟨"ip", "ua"⟩ dbWdup none [] stuW
    (by decide) (by decide) (by decide)
    (by rw [get_or_create_found (show dbWdup.day_session.find?
      (fun r => r.day == "2026-01-05") = some ⟨"2026-01-05", "AB12CD", "t0"⟩ by decide)]; decide)
    hash_cryptoW_pin
    (by rw [get_or_create_found (show dbWdup.day_session.find?
      (fun r => r.day == "2026-01-05") = some ⟨"2026-01-05", "AB12CD", "t0"⟩ by decide)]; decide)

/-- Claim C2: ordered, short-circuiting validation.  Under the rate
limit, (i) a request with an empty trimmed field is rejected as
`MissingField` for every token, roster and crypto; (ii) a request whose
trimmed, uppercased session code differs from the day's code is rejected
as `BadSessionCode` for every roster and crypto — so before any roster
lookup or PIN verification, even when roll number and PIN are correct —
and leaves the attendance table and snapshot directory unchanged;
(iii) with a matching code, an unknown roll is rejected as
`UnknownStudent` for every crypto (the PIN is never hashed); (iv) a
known roll with a wrong PIN is rejected as `BadPin` with no snapshot
taken and the attendance table unchanged. -/
theorem validation_order_short_circuits (C : Crypto)
    (token nowStr ts day : String) (camOk : Bool) (form : Form)
    (meta : ClientMeta) (db : DB) (rlS : Option Nat) (fs : List String)
    (h : ¬ 20 < rate_limit_key rlS + 1) :
    ((pyStrip form.roll_no = "" ∨ pyStrip form.pin = "" ∨
        pyUpper (pyStrip form.session_code) = "") →
      ∀ (C' : Crypto) (tok' : String) (camOk' : Bool) (sts : List Student),
        (kiosk_post C' tok' nowStr ts day camOk' form meta
          { db with students := sts } rlS fs).outcome = .missingField) ∧
    (¬ (pyStrip form.roll_no = "" ∨ pyStrip form.pin = "" ∨
        pyUpper (pyStrip form.session_code) = "") →
      pyUpper (pyStrip form.session_code) ≠
        (get_or_create_session_code token nowStr day db).1 →
      (∀ (C' : Crypto) (camOk' : Bool) (sts : List Student),
        (kiosk_post C' token nowStr ts day camOk' form meta
          { db with students := sts } rlS fs).outcome = .badSessionCode) ∧
      (kiosk_post C token nowStr ts day camOk form meta db rlS fs).db.attendance =
        db.attendance ∧
      (kiosk_post C token nowStr ts day camOk form meta db rlS fs).fs = fs) ∧
    (¬ (pyStrip form.roll_no = "" ∨ pyStrip form.pin = "" ∨
        pyUpper (pyStrip form.session_code) = "") →
      pyUpper (pyStrip form.session_code) =
        (get_or_create_session_code token nowStr day db).1 →
      (get_or_create_session_code token nowStr day db).2.students.find?
        (fun s => s.roll_no == pyStrip form.roll_no) = none →
      ∀ (C' : Crypto) (camOk' : Bool),
        (kiosk_post C' token nowStr ts day camOk' form meta db rlS fs).outcome =
          .unknownStudent ∧
        (kiosk_post C' token nowStr ts day camOk' form meta db rlS fs).fs = fs) ∧
    (∀ (stu : Student),
      ¬ (pyStrip form.roll_no = "" ∨ pyStrip form.pin = "" ∨
        pyUpper (pyStrip form.session_code) = "") →
      pyUpper (pyStrip form.session_code) =
        (get_or_create_session_code token nowStr day db).1 →
      (get_or_create_session_code token nowStr day db).2.students.find?
        (fun s => s.roll_no == pyStrip form.roll_no) = some stu →
      hash_pw C (pyStrip form.pin) stu.salt ≠ stu.pin_hash →
      (kiosk_post C token nowStr ts day camOk form meta db rlS fs).outcome = .badPin ∧
      (kiosk_post C token nowStr ts day camOk form meta db rlS fs).fs = fs ∧
      (kiosk_post C token nowStr ts day camOk form meta db rlS fs).db.attendance =
        db.attendance) := by
  refine ⟨?_, ?_, ?_, ?_⟩
  · intro hm C' tok' camOk' sts
    rw [kiosk_post_missing C' tok' nowStr ts day camOk' form meta
      { db with students := sts } rlS fs h hm]
  · intro hm hc
    refine ⟨fun C' camOk' sts => ?_, ?_, ?_⟩
    · rw [kiosk_post_badcode C' token nowStr ts day camOk' form meta
        { db with students := sts } rlS fs h hm
        (by rw [get_or_create_code_students]; exact hc)]
    · rw [kiosk_post_badcode C token nowStr ts day camOk form meta db rlS fs h hm hc]
      simp [log_attendance, get_or_create_attendance]
    · rw [kiosk_post_badcode C token nowStr ts day camOk form meta db rlS fs h hm hc]
  · intro hm hc hs C' camOk'
    rw [kiosk_post_unknown C' token nowStr ts day camOk' form meta db rlS fs h hm hc hs]
    exact ⟨rfl, rfl⟩
  · intro stu hm hc hs hp
    rw [kiosk_post_badpin C token nowStr ts day camOk form meta db rlS fs h hm hc hs hp]
    exact ⟨rfl, rfl, by simp [log_attendance, get_or_create_attendance]⟩

/-- Witness for C2: with the valid student on the roster and a correct
PIN but the wrong session code, the attempt is rejected as
`BadSessionCode` and the attendance table stays empty. -/
theorem validation_order_short_circuits_witness :
    (kiosk_post cryptoW "abcdef" "t1" "s1" "2026-01-05" true ⟨"12", "4321", "XXXXXX"⟩
      ⟨"ip", "ua"⟩ dbW none []).outcome = .badSessionCode ∧
    (kiosk_post cryptoW "abcdef" "t1" "s1" "2026-01-05" true ⟨"12", "4321", "XXXXXX"⟩
      ⟨"ip", "ua"⟩ dbW none []).db.attendance = dbW.attendance :=
  have main := validation_order_short_circuits cryptoW "abcdef" "t1" "s1" "2026-01-05"
    true ⟨"12", "4321", "XXXXXX"⟩ ⟨"ip", "ua"⟩ dbW none [] (by decide)
  have hres := main.2.1 (by decide)
    (by rw [get_or_create_found (show dbW.day_session.find?
      (fun r => r.day == "2026-01-05") = some ⟨"2026-01-05", "AB12CD", "t0"⟩ by decide)]; decide)
  ⟨by
      have := hres.1 cryptoW true dbW.students
      simpa using this,
    hres.2.1⟩

/-- Claim C5: the per-session rate-limit counter starts at zero, is
incremented by every check-in POST whatever the attempt contains, and a
POST arriving when the incremented counter exceeds the ceiling of 20 is
rejected as `RateLimitExceeded` with no validation performed (the
attendance table is untouched, the snapshot directory is untouched, and
the whole result is fixed by the session-code fetch alone, for every form
content, roster and crypto).  After `n` consecutive POSTs the counter is
exactly `n`, so the 21st consecutive POST from one session is rejected;
no branch ever resets the counter. -/
theorem rate_limit_ceiling :
    rate_limit_key none = 0 ∧
    (∀ (C : Crypto) (token nowStr ts day : String) (camOk : Bool) (form : Form)
      (meta : ClientMeta) (db : DB) (rlS : Option Nat) (fs : List String),
      (kiosk_post C token nowStr ts day camOk form meta db rlS fs).rl =
        rate_limit_key rlS + 1) ∧
    (∀ (C : Crypto) (token nowStr ts day : String) (camOk : Bool) (form : Form)
      (meta : ClientMeta) (db : DB) (rlS : Option Nat) (fs : List String),
      20 < rate_limit_key rlS + 1 →
      kiosk_post C token nowStr ts day camOk form meta db rlS fs =
        ⟨.rateLimitExceeded, (get_or_create_session_code token nowStr day db).2,
          rate_limit_key rlS + 1, fs⟩ ∧
      (kiosk_post C token nowStr ts day camOk form meta db rlS fs).db.attendance =
        db.attendance) ∧
    (∀ (C : Crypto) (token nowStr ts day : String) (camOk : Bool) (form : Form)
      (meta : ClientMeta) (db : DB) (fs : List String) (n : Nat),
      rate_limit_key
        ((kiosk_iterate C token nowStr ts day camOk form meta n (db, none, fs)).2.1) = n) ∧
    (∀ (C : Crypto) (token nowStr ts day : String) (camOk : Bool) (form : Form)
      (meta : ClientMeta) (db : DB) (fs : List String),
      (kiosk_post C token nowStr ts day camOk form meta
        (kiosk_iterate C token nowStr ts day camOk form meta 20 (db, none, fs)).1
        (kiosk_iterate C token nowStr ts day camOk form meta 20 (db, none, fs)).2.1
        (kiosk_iterate C token nowStr ts day camOk form meta 20 (db, none, fs)).2.2).outcome =
        .rateLimitExceeded) := by
  refine ⟨rfl, fun C token nowStr ts day camOk form meta db rlS fs =>
      kiosk_post_rl C token nowStr ts day camOk form meta db rlS fs,
    ?_, ?_, ?_⟩
  · intro C token nowStr ts day camOk form meta db rlS fs h
    refine ⟨kiosk_post_over_limit C token nowStr ts day camOk form meta db rlS fs h, ?_⟩
    rw [kiosk_post_over_limit C token nowStr ts day camOk form meta db rlS fs h]
    exact get_or_create_attendance token nowStr day db
  · intro C token nowStr ts day camOk form meta db fs n
    rw [kiosk_iterate_rl]
    rfl
  · intro C token nowStr ts day camOk form meta db fs
    have h20 : rate_limit_key
        ((kiosk_iterate C token nowStr ts day camOk form meta 20 (db, none, fs)).2.1) = 20 := by
      rw [kiosk_iterate_rl]; rfl
    rw [kiosk_post_over_limit _ _ _ _ _ _ _ _ _ _ _ (by rw [h20]; omega)]

/-- Witness for C5: a POST arriving with the session counter at 20 (the
21st attempt) is rejected with the counter stored back as 21. -/
theorem rate_limit_ceiling_witness :
    kiosk_post cryptoW "abcdef" "t1" "s1" "2026-01-05" false ⟨"12", "4321", "AB12CD"⟩
      ⟨"127.0.0.1", "UA"⟩ ⟨[], [⟨"2026-01-05", "AB12CD", "t0"⟩], [], []⟩ (some 20) [] =
      ⟨.rateLimitExceeded, ⟨[], [⟨"2026-01-05", "AB12CD", "t0"⟩], [], []⟩, 21, []⟩ := by
  have h := (rate_limit_ceiling.2.2.1 cryptoW "abcdef" "t1" "s1" "2026-01-05" false
    ⟨"12", "4321", "AB12CD"⟩ ⟨"127.0.0.1", "UA"⟩
    ⟨[], [⟨"2026-01-05", "AB12CD", "t0"⟩], [], []⟩ (some 20) [] (by decide)).1
  rw [h, get_or_create_found (show (⟨[], [⟨"2026-01-05", "AB12CD", "t0"⟩], [], []⟩ : DB).day_session.find?
    (fun r => r.day == "2026-01-05") = some ⟨"2026-01-05", "AB12CD", "t0"⟩ by decide)]
  rfl

/-- Claim C9: session-code matching is case-insensitive.  When the
submitted code equals the day's stored code up to letter case after
trimming (the stored code being invariant under uppercasing, as generated
codes are), the code check passes because the input is uppercased before
comparison; an otherwise-valid request succeeds and exactly one
attendance record for (student, day) exists afterwards. -/
theorem case_insensitive_code_checkin (C : Crypto) (token nowStr ts day : String)
    (camOk : Bool) (form : Form) (meta : ClientMeta) (db : DB) (rlS : Option Nat)
    (fs : List String) (row : DaySessionRow) (stu : Student)
    (hrow : db.day_session.find? (fun r => r.day == day) = some row)
    (hupper : pyUpper row.session_code = row.session_code)
    (hmatch : pyUpper (pyStrip form.session_code) = pyUpper row.session_code)
    (hcode_ne : row.session_code ≠ "")
    (h : ¬ 20 < rate_limit_key rlS + 1)
    (hroll : pyStrip form.roll_no ≠ "") (hpin : pyStrip form.pin ≠ "")
    (hs : db.students.find? (fun s => s.roll_no == pyStrip form.roll_no) = some stu)
    (hp : hash_pw C (pyStrip form.pin) stu.salt = stu.pin_hash)
    (hd : db.attendance.any (fun a => a.student_id == stu.id && a.day == day) = false) :
    (kiosk_post C token nowStr ts day camOk form meta db rlS fs).outcome = .success ∧
    (kiosk_post C token nowStr ts day camOk form meta db rlS fs).db.attendance.countP
      (fun a => a.student_id == stu.id && a.day == day) = 1 := by
  have hfound := @get_or_create_found token nowStr day db row hrow
  have hsc : pyUpper (pyStrip form.session_code) = row.session_code := hmatch.trans hupper
  have hm : ¬ (pyStrip form.roll_no = "" ∨ pyStrip form.pin = "" ∨
      pyUpper (pyStrip form.session_code) = "") := by
    push_neg
    exact ⟨hroll, hpin, by rw [hsc]; exact hcode_ne⟩
  rw [kiosk_post_success C token nowStr ts day camOk form meta db rlS fs h hm
    (by rw [hfound]; exact hsc) (by rw [hfound]; exact hs) hp (by rw [hfound]; exact hd)]
  refine ⟨rfl, ?_⟩
  rw [log_attendance]
  have hatt : (get_or_create_session_code token nowStr day db).2.attendance =
      db.attendance := get_or_create_attendance token nowStr day db
  dsimp only
  rw [hatt, List.countP_append]
  have hzero : db.attendance.countP
      (fun a => a.student_id == stu.id && a.day == day) = 0 := by
    rw [List.countP_eq_zero]
    exact List.any_eq_false.mp hd
  rw [hzero]
  simp [List.countP_cons]

/-- Witness for C9: submitting the lowercase code `ab12cd` against the
stored `AB12CD` with valid roll and PIN succeeds and leaves exactly one
attendance record. -/
theorem case_insensitive_code_checkin_witness :
    (kiosk_post cryptoW "abcdef" "t1" "s1" "2026-01-05" false ⟨" 12 ", "4321", " ab12cd "⟩
      ⟨"ip", "ua"⟩ dbW none []).outcome = .success ∧
    (kiosk_post cryptoW "abcdef" "t1" "s1" "2026-01-05" false ⟨" 12 ", "4321", " ab12cd "⟩
      ⟨"ip", "ua"⟩ dbW none []).db.attendance.countP
      (fun a => a.student_id == stuW.id && a.day == "2026-01-05") = 1 :=
  case_insensitive_code_checkin cryptoW "abcdef" "t1" "s1" "2026-01-05" false
    ⟨" 12 ", "4321", " ab12cd "⟩ ⟨"ip", "ua"⟩ dbW none []
    ⟨"2026-01-05", "AB12CD", "t0"⟩ stuW
    (by decide) (by decide) (by decide) (by decide) (by decide) (by decide) (by decide)
    (by decide) hash_cryptoW_pin (by decide)

/-- Claim C10: snapshot capture precedes the attendance insert.  With the
camera available, a check-in rejected as a duplicate has nonetheless
written a snapshot file `{day}_{roll}_{ts}.jpg` into the snapshot
directory, while the attendance table is unchanged: duplicate rejection
is not free of filesystem side effects. -/
theorem duplicate_checkin_snapshot_side_effect (C : Crypto)
    (token nowStr ts day : String) (form : Form) (meta : ClientMeta) (db : DB)
    (rlS : Option Nat) (fs : List String) (stu : Student)
    (h : ¬ 20 < rate_limit_key rlS + 1)
    (hm : ¬ (pyStrip form.roll_no = "" ∨ pyStrip form.pin = "" ∨
      pyUpper (pyStrip form.session_code) = ""))
    (hc : pyUpper (pyStrip form.session_code) =
      (get_or_create_session_code token nowStr day db).1)
    (hs : (get_or_create_session_code token nowStr day db).2.students.find?
      (fun s => s.roll_no == pyStrip form.roll_no) = some stu)
    (hp : hash_pw C (pyStrip form.pin) stu.salt = stu.pin_hash)
    (hd : (get_or_create_session_code token nowStr day db).2.attendance.any
      (fun a => a.student_id == stu.id && a.day == day) = true) :
    (kiosk_post C token nowStr ts day true form meta db rlS fs).outcome =
      .alreadyCheckedIn ∧
    (kiosk_post C token nowStr ts day true form meta db rlS fs).fs =
      (day ++ "_" ++ pyStrip form.roll_no ++ "_" ++ ts ++ ".jpg") :: fs ∧
    (kiosk_post C token nowStr ts day true form meta db rlS fs).db.attendance =
      db.attendance := by
  rw [kiosk_post_dup C token nowStr ts day true form meta db rlS fs h hm hc hs hp hd]
  exact ⟨rfl, rfl, by simp [log_attendance, get_or_create_attendance]⟩

/-- Witness for C10: the duplicate attempt of the C1 scenario, with the
camera on, leaves the snapshot file in the directory while the attendance
table keeps its single record. -/
theorem duplicate_checkin_snapshot_side_effect_witness :
    (kiosk_post cryptoW "abcdef" "t1" "s1" "2026-01-05" true ⟨"12", "4321", "AB12CD"⟩
      ⟨"ip", "ua"⟩ dbWdup none []).outcome = .alreadyCheckedIn ∧
    (kiosk_post cryptoW "abcdef" "t1" "s1" "2026-01-05" true ⟨"12", "4321", "AB12CD"⟩
      ⟨"ip", "ua"⟩ dbWdup none []).fs = ["2026-01-05_12_s1.jpg"] ∧
    (kiosk_post cryptoW "abcdef" "t1" "s1" "2026-01-05" true ⟨"12", "4321", "AB12CD"⟩
      ⟨"ip", "ua"⟩ dbWdup none []).db.attendance = dbWdup.attendance :=
  duplicate_checkin_snapshot_side_effect cryptoW "abcdef" "t1" "s1" "2026-01-05"
    ⟨"12", "4321", "AB12CD"⟩ ⟨"ip", "ua"⟩ dbWdup none [] stuW
    (by decide) (by decide)
    (by rw [get_or_create_found (show dbWdup.day_session.find?
      (fun r => r.day == "2026-01-05") = some ⟨"2026-01-05", "AB12CD", "t0"⟩ by decide)]; decide)
    (by rw [get_or_create_found (show dbWdup.day_session.find?
      (fun r => r.day == "2026-01-05") = some ⟨"2026-01-05", "AB12CD", "t0"⟩ by decide)]; decide)
    hash_cryptoW_pin
    (by rw [get_or_create_found (show dbWdup.day_session.find?
      (fun r => r.day == "2026-01-05") = some ⟨"2026-01-05", "AB12CD", "t0"⟩ by decide)]; decide)

/-- Counterexample to C8 as stated: a failing check-in attempt whose PIN
is empty after trimming is rejected as `MissingField`, yet the audit log
is left empty — the `MissingField` branch of `kiosk` returns without
calling `log`. -/
theorem missing_field_writes_no_audit :
    (kiosk_post cryptoW "abcdef" "t1" "s1" "2026-01-05" false ⟨"12", "   ", "ab12cd"⟩
      ⟨"ip", "ua"⟩ dbW none []).outcome = .missingField ∧
    (kiosk_post cryptoW "abcdef" "t1" "s1" "2026-01-05" false ⟨"12", "   ", "ab12cd"⟩
      ⟨"ip", "ua"⟩ dbW none []).db.audit_log = [] ∧
    dbW.audit_log = [] := by
  rw [kiosk_post_missing cryptoW "abcdef" "t1" "s1" "2026-01-05" false
      ⟨"12", "   ", "ab12cd"⟩ ⟨"ip", "ua"⟩ dbW none [] (by decide) (by decide),
    get_or_create_found (show dbW.day_session.find?
      (fun r => r.day == "2026-01-05") = some ⟨"2026-01-05", "AB12CD", "t0"⟩ by decide)]
  exact ⟨rfl, rfl, rfl⟩

/-- Claim C8 (amended): on a day whose session row exists, every failing
check-in attempt that passes the field-presence check — bad session code,
unknown roll, bad PIN, and the duplicate rejection — appends exactly one
audit event recording the distinguishing reason before returning; the
`MissingField` rejection appends no audit event. -/
theorem audit_on_failures (C : Crypto) (token nowStr ts day : String)
    (camOk : Bool) (form : Form) (meta : ClientMeta) (db : DB)
    (rlS : Option Nat) (fs : List String) (row : DaySessionRow)
    (hrow : db.day_session.find? (fun r => r.day == day) = some row)
    (h : ¬ 20 < rate_limit_key rlS + 1) :
    ((pyStrip form.roll_no = "" ∨ pyStrip form.pin = "" ∨
        pyUpper (pyStrip form.session_code) = "") →
      (kiosk_post C token nowStr ts day camOk form meta db rlS fs).db.audit_log =
        db.audit_log) ∧
    (¬ (pyStrip form.roll_no = "" ∨ pyStrip form.pin = "" ∨
        pyUpper (pyStrip form.session_code) = "") →
      pyUpper (pyStrip form.session_code) ≠ row.session_code →
      (kiosk_post C token nowStr ts day camOk form meta db rlS fs).db.audit_log =
        db.audit_log ++ [⟨nowStr, "CHECKIN_FAIL",
          pyTake 1000 ("roll=" ++ pyStrip form.roll_no ++ ", reason=bad_session_code")⟩]) ∧
    (¬ (pyStrip form.roll_no = "" ∨ pyStrip form.pin = "" ∨
        pyUpper (pyStrip form.session_code) = "") →
      pyUpper (pyStrip form.session_code) = row.session_code →
      db.students.find? (fun s => s.roll_no == pyStrip form.roll_no) = none →
      (kiosk_post C token nowStr ts day camOk form meta db rlS fs).db.audit_log =
        db.audit_log ++ [⟨nowStr, "CHECKIN_FAIL",
          pyTake 1000 ("roll=" ++ pyStrip form.roll_no ++ ", reason=unknown_roll")⟩]) ∧
    (∀ (stu : Student),
      ¬ (pyStrip form.roll_no = "" ∨ pyStrip form.pin = "" ∨
        pyUpper (pyStrip form.session_code) = "") →
      pyUpper (pyStrip form.session_code) = row.session_code →
      db.students.find? (fun s => s.roll_no == pyStrip form.roll_no) = some stu →
      hash_pw C (pyStrip form.pin) stu.salt ≠ stu.pin_hash →
      (kiosk_post C token nowStr ts day camOk form meta db rlS fs).db.audit_log =
        db.audit_log ++ [⟨nowStr, "CHECKIN_FAIL",
          pyTake 1000 ("roll=" ++ pyStrip form.roll_no ++ ", reason=bad_pin")⟩]) ∧
    (∀ (stu : Student),
      ¬ (pyStrip form.roll_no = "" ∨ pyStrip form.pin = "" ∨
        pyUpper (pyStrip form.session_code) = "") →
      pyUpper (pyStrip form.session_code) = row.session_code →
      db.students.find? (fun s => s.roll_no == pyStrip form.roll_no) = some stu →
      hash_pw C (pyStrip form.pin) stu.salt = stu.pin_hash →
      db.attendance.any (fun a => a.student_id == stu.id && a.day == day) = true →
      (kiosk_post C token nowStr ts day camOk form meta db rlS fs).db.audit_log =
        db.audit_log ++ [⟨nowStr, "CHECKIN_DUP",
          pyTake 1000 ("roll=" ++ pyStrip form.roll_no ++ " already checked today")⟩]) := by
  have hfound := @get_or_create_found token nowStr day db row hrow
  refine ⟨?_, ?_, ?_, ?_, ?_⟩
  · intro hm
    rw [kiosk_post_missing C token nowStr ts day camOk form meta db rlS fs h hm, hfound]
  · intro hm hc
    rw [kiosk_post_badcode C token nowStr ts day camOk form meta db rlS fs h hm
      (by rw [hfound]; exact hc)]
    rw [hfound]
    rfl
  · intro hm hc hs
    rw [kiosk_post_unknown C token nowStr ts day camOk form meta db rlS fs h hm
      (by rw [hfound]; exact hc) (by rw [hfound]; exact hs)]
    rw [hfound]
    rfl
  · intro stu hm hc hs hp
    rw [kiosk_post_badpin C token nowStr ts day camOk form meta db rlS fs h hm
      (by rw [hfound]; exact hc) (by rw [hfound]; exact hs) hp]
    rw [hfound]
    rfl
  · intro stu hm hc hs hp hd
    rw [kiosk_post_dup C token nowStr ts day camOk form meta db rlS fs h hm
      (by rw [hfound]; exact hc) (by rw [hfound]; exact hs) hp (by rw [hfound]; exact hd)]
    rw [hfound]
    rfl

/-- Witness for C8 (amended): an unknown roll number is audit-logged with
reason `unknown_roll`. -/
theorem audit_on_failures_witness :
    (kiosk_post cryptoW "abcdef" "t1" "s1" "2026-01-05" false ⟨"99", "4321", "AB12CD"⟩
      ⟨"ip", "ua"⟩ dbW none []).db.audit_log =
      dbW.audit_log ++ [⟨"t1", "CHECKIN_FAIL",
        pyTake 1000 ("roll=" ++ pyStrip "99" ++ ", reason=unknown_roll")⟩] :=
  (audit_on_failures cryptoW "abcdef" "t1" "s1" "2026-01-05" false
    ⟨"99", "4321", "AB12CD"⟩ ⟨"ip", "ua"⟩ dbW none []
    ⟨"2026-01-05", "AB12CD", "t0"⟩ (by decide) (by decide)).2.2.1
    (by decide) (by decide) (by decide)

/-- Witness for C7 (amended), uncontended creation path: from an empty
database with no interference, the call returns the uppercased token and
the row is persisted. -/
theorem get_or_create_race_behavior_witness :
    ∃ db', get_or_create_session_code_race "abc123" "t1" "2026-01-06" id
        ⟨[], [], [], []⟩ = .ok (pyUpper "abc123", db') ∧
      (⟨"2026-01-06", pyUpper "abc123", "t1"⟩ : DaySessionRow) ∈ db'.day_session :=
  (get_or_create_race_behavior "abc123" "t1" "2026-01-06" id
    ⟨[], [], [], []⟩).2.2.1 (by rfl) (by rfl)

end Attendance
